import Mathlib

/-!
Shallow embedding of the leader-elector component of the Go-Utils repository
(package `elector`, file elector.go, together with the store wrapper
`dynamo.Put` from database/dynamo/dynamo.go and the config merge
`utils.MergeObjects` from sentry/sentry.go).

Store interactions are modelled by explicit oracles: each field of an oracle
records the outcome the external store would give to the corresponding call
of one elector operation, in the order the Go code issues the calls.  An
`Except String α` value is the Go pair `(value, error)`: `.error e` is a
non-nil error with message `e`, `.ok v` a nil error with result `v`.
Durations are modelled as `Int` nanoseconds, exactly the representation of
Go `time.Duration` (an int64 count of nanoseconds).
-/

namespace GoUtils

/-- Decidable equality for `Except`, used to state store-oracle equations. -/
instance {ε α : Type} [DecidableEq ε] [DecidableEq α] :
    DecidableEq (Except ε α) := fun a b =>
  match a, b with
  | .error x, .error y =>
      if h : x = y then .isTrue (h ▸ rfl)
      else .isFalse (fun hc => h (Except.error.inj hc))
  | .error _, .ok _ => .isFalse (fun hc => Except.noConfusion hc)
  | .ok _, .error _ => .isFalse (fun hc => Except.noConfusion hc)
  | .ok x, .ok y =>
      if h : x = y then .isTrue (h ▸ rfl)
      else .isFalse (fun hc => h (Except.ok.inj hc))

/-- Identifier of a store call the elector performs, used to record which
calls an operation actually issued. -/
inductive StoreCall where
  | read
  | write
  | delete
deriving DecidableEq, Repr

/-- Error value produced by an elector operation.  Each constructor mirrors
one error-producing site in elector.go: `contextCanceled` is Go
`context.Canceled` (returned when the lifetime context is done),
and the other constructors mirror the `fmt.Errorf` wrappings, holding the
wrapped inner error. -/
inductive ElectorErr where
  | contextCanceled
  | getLeaderFailed (storeErr : String)
  | checkLeaderFailed (inner : ElectorErr)
  | setLeadershipFailed (storeErr : String)
  | verifyLeadershipFailed (inner : ElectorErr)
  | renewGetLeaderFailed (inner : ElectorErr)
  | renewLeaseFailed (storeErr : String)
  | revokeFailed (storeErr : String)
deriving DecidableEq, Repr

/-- Go duration constants, in nanoseconds (`time.Millisecond` etc.). -/
def millisecond : Int := 1000000

/-- One second in nanoseconds. -/
def second : Int := 1000000000

/-- One minute in nanoseconds. -/
def minute : Int := 60 * second

/-- ElectorConfig from elector.go: table name, jitter bounds, check
interval, lease timeout and lock key name.  Durations are Int nanoseconds. -/
structure ElectorConfig where
  tableName : String
  minDelay : Int
  maxDelay : Int
  checkInterval : Int
  leaseTimeout : Int
  keyName : String
deriving DecidableEq, Repr

/-- The local state of an elector instance: the fields of struct `Elector`
in elector.go that the verified claims depend on.  `cancelled` models
whether the context created by `Start` has been cancelled (`ctx.Done()`
closed). -/
structure Elector where
  instanceID : String
  config : ElectorConfig
  initialDelay : Int
  cancelled : Bool
  isLeader : Bool
deriving DecidableEq, Repr

/-- Store outcomes for one election-cycle operation, in call order:
`read1` is the first `dynamo.GetString`, `write` the `dynamo.Put`,
`read2` the verification `dynamo.GetString` (unused by renewal). -/
structure CycleOracle where
  read1 : Except String String
  write : Except String Unit
  read2 : Except String String
deriving DecidableEq, Repr

/-- Store outcomes for one revocation, in call order: the pre-delete
`getLeader` read, the `dynamo.Delete`, and the post-delete verification
read (whose result is only logged). -/
structure RevokeOracle where
  read : Except String String
  del : Except String Unit
  verifyRead : Except String String
deriving DecidableEq, Repr

/-- getLeader from elector.go: wraps the outcome of
`dynamo.GetString(tableName, keyName)`.  On a store error it returns the
context error when the context is already cancelled, otherwise the wrapped
store error; on success it returns the holder string ("" when the record
is absent). -/
def getLeader (cancelled : Bool) (readResult : Except String String) :
    Except ElectorErr String :=
  match readResult with
  | .error e =>
      if cancelled then .error .contextCanceled
      else .error (.getLeaderFailed e)
  | .ok v => .ok v

/-- attemptLeadership from elector.go.  Returns the Go pair
`(bool, error)` together with the list of store calls issued: context
check, read of the current holder, unconditional put of the own id,
verification read, success iff the verification read returns the own id. -/
def attemptLeadership (e : Elector) (o : CycleOracle) :
    Except ElectorErr Bool × List StoreCall :=
  if e.cancelled then (.error .contextCanceled, [])
  else
    match getLeader e.cancelled o.read1 with
    | .error err => (.error (.checkLeaderFailed err), [.read])
    | .ok leader =>
      if leader ≠ "" then (.ok false, [.read])
      else
        match o.write with
        | .error err => (.error (.setLeadershipFailed err), [.read, .write])
        | .ok _ =>
          match getLeader e.cancelled o.read2 with
          | .error err =>
              (.error (.verifyLeadershipFailed err), [.read, .write, .read])
          | .ok currentLeader =>
              (.ok (currentLeader == e.instanceID), [.read, .write, .read])

/-- renewLeadership from elector.go: context check, read of the current
holder, not-renewed without writing when the holder differs from the own
id, otherwise unconditional put refreshing the TTL. -/
def renewLeadership (e : Elector) (o : CycleOracle) :
    Except ElectorErr Bool × List StoreCall :=
  if e.cancelled then (.error .contextCanceled, [])
  else
    match getLeader e.cancelled o.read1 with
    | .error err => (.error (.renewGetLeaderFailed err), [.read])
    | .ok leader =>
      if leader ≠ e.instanceID then (.ok false, [.read])
      else
        match o.write with
        | .error err => (.error (.renewLeaseFailed err), [.read, .write])
        | .ok _ => (.ok true, [.read, .write])

/-- setLeader from elector.go (the mutex is irrelevant in the sequential
model): updates the local leader flag. -/
def setLeader (e : Elector) (b : Bool) : Elector :=
  { e with isLeader := b }

/-- runElectionCycle from elector.go: a leader renews (falling back to
follower on error or lost lease), a follower attempts acquisition
(becoming leader only on reported success; errors leave it follower). -/
def runElectionCycle (e : Elector) (o : CycleOracle) : Elector :=
  if e.isLeader then
    match (renewLeadership e o).1 with
    | .error _ => setLeader e false
    | .ok success => if success then e else setLeader e false
  else
    match (attemptLeadership e o).1 with
    | .error _ => e
    | .ok success => if success then setLeader e true else e

/-- revokeLeadership from elector.go.  Returns the Go error, the updated
local state, and the list of store calls issued.  When the local flag is
clear nothing happens.  Otherwise the current holder is read: a read error
is only logged and revocation continues; a different holder clears the
local flag and skips the delete; the own holder (or a failed read) leads
to the delete.  A delete error is returned with the local flag left
unchanged; a successful delete clears the flag and performs a verification
read whose outcome is only logged. -/
def revokeLeadership (e : Elector) (o : RevokeOracle) :
    Except ElectorErr Unit × Elector × List StoreCall :=
  if ¬ e.isLeader then (.ok (), e, [])
  else
    let afterRead :=
      match getLeader e.cancelled o.read with
      | .ok currentLeader =>
          if currentLeader ≠ e.instanceID then none else some ()
      | .error _ => some ()
    match afterRead with
    | none => (.ok (), setLeader e false, [.read])
    | some _ =>
      match o.del with
      | .error err =>
          (.error (.revokeFailed err), e, [.read, .delete])
      | .ok _ =>
          (.ok (), setLeader e false, [.read, .delete, .read])

/-- Stop from elector.go, acting on an elector created by a completed
`Start` (so the context and its cancel function exist): it cancels the
context, stops the ticker if one exists, and, when the local flag says
leader, performs one best-effort revocation whose error is only logged.
Returns the updated local state and the store calls issued. -/
def Stop (e : Elector) (o : RevokeOracle) : Elector × List StoreCall :=
  let e1 : Elector := { e with cancelled := true }
  if e1.isLeader then
    match revokeLeadership e1 o with
    | (_, e2, calls) => (e2, calls)
  else (e1, [])

/-- IsLeader from elector.go, as seen through the package-level pointer
`var elector *Elector` (nil before `Start` has run).  Dereferencing the
nil pointer panics, modelled as `none`; otherwise the flag is returned
under the read lock. -/
def IsLeader (g : Option Elector) : Option Bool :=
  match g with
  | none => none
  | some e => some e.isLeader

/-- Put from database/dynamo/dynamo.go: looks the table up and, on
success, calls `table.Put` WITHOUT inspecting its error result, returning
nil.  `tableLookup` is the outcome of `getTable`, `tablePut` the outcome
the inner `table.Put` call would report. -/
def dynamoPut (tableLookup : Except String Unit) (tablePut : Except String Unit) :
    Except String Unit :=
  match tableLookup with
  | .error e => .error e
  | .ok _ => .ok ()

/-- Go `Duration.Milliseconds()`: nanoseconds divided by one million with
truncation toward zero (Go integer division). -/
def durationMilliseconds (d : Int) : Int := Int.tdiv d millisecond

/-- generateInitialDelay from elector.go.  `r` models the outcome of
`rng.Int63n(delayRange)`, which the Go contract keeps in
`[0, delayRange)` whenever it is consulted (`delayRange > 0`). -/
def generateInitialDelay (minDelay maxDelay r : Int) : Int :=
  let minMs := durationMilliseconds minDelay
  let maxMs := durationMilliseconds maxDelay
  let delayRange := maxMs - minMs
  if delayRange ≤ 0 then minDelay
  else minDelay + r * millisecond

/-- getDefaultConfig from elector.go. -/
def getDefaultConfig : ElectorConfig :=
  { tableName := "default"
    minDelay := 30 * second
    maxDelay := 45 * second
    checkInterval := 1 * minute
    leaseTimeout := 2 * minute
    keyName := "proxyman_leader_lock" }

/-- MergeObjects from sentry/sentry.go applied to `ElectorConfig`: every
field of `cfg` holding the zero value of its type is replaced by the
corresponding field of `defaults`. -/
def mergeConfig (cfg defaults : ElectorConfig) : ElectorConfig :=
  { tableName := if cfg.tableName = "" then defaults.tableName else cfg.tableName
    minDelay := if cfg.minDelay = 0 then defaults.minDelay else cfg.minDelay
    maxDelay := if cfg.maxDelay = 0 then defaults.maxDelay else cfg.maxDelay
    checkInterval :=
      if cfg.checkInterval = 0 then defaults.checkInterval else cfg.checkInterval
    leaseTimeout :=
      if cfg.leaseTimeout = 0 then defaults.leaseTimeout else cfg.leaseTimeout
    keyName := if cfg.keyName = "" then defaults.keyName else cfg.keyName }

/-- Start from elector.go, up to the point where it returns: merges the
optional config over the defaults, installs a fresh elector with the
leader flag clear and a live context, and returns the Go error value —
which is the literal `nil` on every path.  `instanceID` models the
generated UUID and `r` the random draw feeding the jitter. -/
def Start (opts : List ElectorConfig) (instanceID : String) (r : Int) :
    Elector × Option String :=
  let cfg :=
    match opts with
    | [] => getDefaultConfig
    | c :: _ => mergeConfig c getDefaultConfig
  ({ instanceID := instanceID
     config := cfg
     initialDelay := generateInitialDelay cfg.minDelay cfg.maxDelay r
     cancelled := false
     isLeader := false }, none)

/-!
Interleaved model of concurrent acquisition for several instances, with
compare-and-swap semantics layered onto the write, as postulated by spec
property P1.  Each instance runs the step structure of
`attemptLeadership`: read the holder, abort if non-empty, write the own id
(here: only if the holder is still empty — the CAS hypothesis), then
perform the verification read and succeed exactly when it returns the own
id.  The shared store holds the single lease record ("" = absent); any
store call may also fail, aborting that instance conservatively.
-/

/-- Program counter of one instance inside its acquisition attempt.
`done true` is the point immediately following a successful verification
read, where the instance sets its local leader flag. -/
inductive AcqPC where
  | start
  | afterRead (holder : String)
  | afterWrite (ok : Bool)
  | done (success : Bool)
deriving DecidableEq, Repr

/-- Global state of `n` concurrently acquiring instances: the shared lease
record and each program counter. -/
structure CasSys (n : Nat) where
  store : String
  pc : Fin n → AcqPC

/-- Initial state: empty store, every instance about to read. -/
def casInit (n : Nat) : CasSys n :=
  { store := "", pc := fun _ => .start }

/-- One interleaving step of the concurrent acquisition system.  `ids i`
is the instance id of instance `i`.  `casWriteOk` is the
compare-and-swap: the write succeeds only when the record is still empty.
`readFail`, `writeFail` and `verifyFail` model store errors, which abort
the attempt (the instance stays follower), mirroring the error branches
of `attemptLeadership`. -/
inductive CasStep {n : Nat} (ids : Fin n → String) :
    CasSys n → CasSys n → Prop where
  | readStep (s : CasSys n) (i : Fin n) (h : s.pc i = .start) :
      CasStep ids s
        { store := s.store, pc := Function.update s.pc i (.afterRead s.store) }
  | readFail (s : CasSys n) (i : Fin n) (h : s.pc i = .start) :
      CasStep ids s { s with pc := Function.update s.pc i (.done false) }
  | holderSeen (s : CasSys n) (i : Fin n) (v : String)
      (h : s.pc i = .afterRead v) (hv : v ≠ "") :
      CasStep ids s { s with pc := Function.update s.pc i (.done false) }
  | casWriteOk (s : CasSys n) (i : Fin n)
      (h : s.pc i = .afterRead "") (hst : s.store = "") :
      CasStep ids s
        { store := ids i, pc := Function.update s.pc i (.afterWrite true) }
  | casWriteLost (s : CasSys n) (i : Fin n)
      (h : s.pc i = .afterRead "") (hst : s.store ≠ "") :
      CasStep ids s
        { store := s.store, pc := Function.update s.pc i (.afterWrite false) }
  | writeFail (s : CasSys n) (i : Fin n) (h : s.pc i = .afterRead "") :
      CasStep ids s { s with pc := Function.update s.pc i (.done false) }
  | verifyStep (s : CasSys n) (i : Fin n) (h : s.pc i = .afterWrite true) :
      CasStep ids s
        { s with pc := Function.update s.pc i (.done (s.store == ids i)) }
  | verifyFail (s : CasSys n) (i : Fin n) (h : s.pc i = .afterWrite true) :
      CasStep ids s { s with pc := Function.update s.pc i (.done false) }
  | casLostDone (s : CasSys n) (i : Fin n) (h : s.pc i = .afterWrite false) :
      CasStep ids s { s with pc := Function.update s.pc i (.done false) }

/-- States reachable from the initial state by interleaved steps. -/
def CasReachable {n : Nat} (ids : Fin n → String) (s : CasSys n) : Prop :=
  Relation.ReflTransGen (CasStep ids) (casInit n) s

/-!  Concrete sample states and oracles used to evaluate the theorems. -/

/-- Sample instance that locally believes it is the leader. -/
def sampleLeader : Elector :=
  { instanceID := "instance-1"
    config := getDefaultConfig
    initialDelay := 0
    cancelled := false
    isLeader := true }

/-- Sample follower instance, as installed by `Start`. -/
def sampleFollower : Elector :=
  { instanceID := "instance-1"
    config := getDefaultConfig
    initialDelay := 0
    cancelled := false
    isLeader := false }

/-- Oracle for a fully successful acquisition: empty holder, successful
write, verification read returning the own id. -/
def acquireOkOracle : CycleOracle :=
  { read1 := .ok "", write := .ok (), read2 := .ok "instance-1" }

/-- Oracle for a renewal attempt that discovers another holder. -/
def overtakenOracle : CycleOracle :=
  { read1 := .ok "instance-2", write := .ok (), read2 := .ok "instance-2" }

/-- Revocation oracle in which the pre-delete read confirms ownership and
the delete against the store fails. -/
def revokeDeleteFails : RevokeOracle :=
  { read := .ok "instance-1", del := .error "store unavailable"
    verifyRead := .ok "instance-1" }

/-- Revocation oracle in which every store call succeeds. -/
def revokeAllOk : RevokeOracle :=
  { read := .ok "instance-1", del := .ok (), verifyRead := .ok "" }

/-- Number of delete calls in a recorded call list. -/
def countDeletes (calls : List StoreCall) : Nat :=
  calls.count StoreCall.delete

/-- One when the recorded calls contain a delete and the oracle answered
that delete with success, zero otherwise: counts successful revoke
deletes of one `Stop`. -/
def succDeleteCount (o : RevokeOracle) (calls : List StoreCall) : Nat :=
  if StoreCall.delete ∈ calls ∧ o.del = Except.ok () then 1 else 0

/-- Ids for the one-instance concrete run of the CAS acquisition system. -/
def casIds1 : Fin 1 → String := fun _ => "instance-1"

/-- Concrete run, state after the read of the empty store. -/
def casRun1 : CasSys 1 :=
  { store := "", pc := Function.update (casInit 1).pc 0 (.afterRead "") }

/-- Concrete run, state after the successful compare-and-swap write. -/
def casRun2 : CasSys 1 :=
  { store := casIds1 0, pc := Function.update casRun1.pc 0 (.afterWrite true) }

/-- Concrete run, state after the verification read. -/
def casRun3 : CasSys 1 :=
  { store := casRun2.store
    pc := Function.update casRun2.pc 0 (.done (casRun2.store == casIds1 0)) }

/-!  Theorems. -/

/-- C1: in the Follower branch of an election cycle (context not
cancelled), the local state becomes Leader iff the initial read returns
empty without error, the write of the own id returns no error, and the
verification read returns exactly the own id; a non-empty initial holder,
any store error, or a different verification id leaves the instance
Follower. -/
theorem follower_becomes_leader_iff (e : Elector) (o : CycleOracle)
    (hL : e.isLeader = false) (hC : e.cancelled = false) :
    (runElectionCycle e o).isLeader = true ↔
      o.read1 = .ok "" ∧ o.write = .ok () ∧ o.read2 = .ok e.instanceID := by
  obtain ⟨r1, w, r2⟩ := o
  rcases r1 with e1 | v1
  · simp [runElectionCycle, attemptLeadership, getLeader, hL, hC]
  · by_cases hv : v1 = ""
    · subst hv
      rcases w with ew | ⟨⟩
      · simp [runElectionCycle, attemptLeadership, getLeader, hL, hC]
      · rcases r2 with e2 | v2
        · simp [runElectionCycle, attemptLeadership, getLeader, hL, hC]
        · by_cases hv2 : v2 = e.instanceID
          · subst hv2
            simp [runElectionCycle, attemptLeadership, getLeader, hL, hC,
              setLeader]
          · simp [runElectionCycle, attemptLeadership, getLeader, hL, hC,
              hv2]
    · simp [runElectionCycle, attemptLeadership, getLeader, hL, hC, hv]

/-- Witness for C1: a follower with an empty store, a successful write and
a matching verification read becomes leader. -/
theorem follower_becomes_leader_iff_witness :
    (runElectionCycle sampleFollower acquireOkOracle).isLeader = true :=
  (follower_becomes_leader_iff sampleFollower acquireOkOracle rfl rfl).mpr
    ⟨rfl, rfl, rfl⟩

/-- C3 counterexample: an instance that locally believes it is leader,
whose pre-delete read confirms its own id but whose delete against the
store fails, still has the leader flag SET after `Stop()` — the code
returns from revokeLeadership before `setLeader(false)` on the delete
error path, and `Stop` only logs the error.  This refutes the claim that
the local flag is always cleared during `Stop()`. -/
theorem stop_delete_failure_keeps_leader_flag :
    (Stop sampleLeader revokeDeleteFails).1.isLeader = true ∧
      IsLeader (some (Stop sampleLeader revokeDeleteFails).1) ≠ some false := by
  constructor
  · rfl
  · simp [IsLeader, Stop, revokeLeadership, getLeader, setLeader,
      sampleLeader, revokeDeleteFails]

/-- C3 amended: after `Stop()` on an instance that locally believed it was
leader, the flag is cleared iff the revocation either saw a different
holder in its pre-delete read or its delete succeeded; when the delete
errors (after the read returned the own id or itself errored) the flag
remains set. -/
theorem stop_clears_flag_iff (e : Elector) (o : RevokeOracle)
    (hL : e.isLeader = true) :
    (Stop e o).1.isLeader = false ↔
      (∃ v, o.read = .ok v ∧ v ≠ e.instanceID) ∨ o.del = .ok () := by
  obtain ⟨r, d, vr⟩ := o
  rcases r with er | v
  · rcases d with ed | ⟨⟩ <;>
      simp [Stop, revokeLeadership, getLeader, setLeader, hL]
  · by_cases hv : v = e.instanceID
    · subst hv
      rcases d with ed | ⟨⟩ <;>
        simp [Stop, revokeLeadership, getLeader, setLeader, hL]
    · rcases d with ed | ⟨⟩ <;>
        simp [Stop, revokeLeadership, getLeader, setLeader, hL, hv]

/-- Witness for the amended C3: a leader whose revocation succeeds ends
with the flag cleared. -/
theorem stop_clears_flag_iff_witness :
    (Stop sampleLeader revokeAllOk).1.isLeader = false :=
  (stop_clears_flag_iff sampleLeader revokeAllOk rfl).mpr (Or.inr rfl)

/-- C4: renewal reads the current holder before any write (a write is
issued only when that read returned the own id); whenever the read
succeeds with a different value (including empty), renewal reports
not-renewed without writing and the election cycle then clears the leader
flag; when the read returns the own id and the write succeeds, renewal
reports success. -/
theorem renew_read_first_no_write_when_overtaken (e : Elector)
    (o : CycleOracle) :
    (StoreCall.write ∈ (renewLeadership e o).2 → o.read1 = .ok e.instanceID) ∧
      (e.cancelled = false →
        (∀ v, o.read1 = .ok v → v ≠ e.instanceID →
          (renewLeadership e o).1 = .ok false ∧
            StoreCall.write ∉ (renewLeadership e o).2 ∧
            (e.isLeader = true → (runElectionCycle e o).isLeader = false)) ∧
          (o.read1 = .ok e.instanceID → o.write = .ok () →
            (renewLeadership e o).1 = .ok true)) := by
  obtain ⟨r1, w, r2⟩ := o
  cases hc : e.cancelled
  · rcases r1 with e1 | v1
    · simp [renewLeadership, getLeader, hc]
    · by_cases hv : v1 = e.instanceID
      · subst hv
        rcases w with ew | ⟨⟩ <;>
          simp [renewLeadership, getLeader, hc]
      · constructor
        · intro hmem
          simp [renewLeadership, getLeader, hc, hv] at hmem
        · intro _
          refine ⟨?_, ?_⟩
          · intro v hv1 hne
            refine ⟨by simp [renewLeadership, getLeader, hc, hv], ?_, ?_⟩
            · simp [renewLeadership, getLeader, hc, hv]
            · intro hL
              simp [runElectionCycle, renewLeadership, getLeader, hc, hv, hL,
                setLeader]
          · intro hr1
            exact absurd (Except.ok.inj hr1) hv
  · rcases r1 with e1 | v1 <;>
      simp [renewLeadership, getLeader, hc]

/-- Witness for C4: a leader whose renewal read shows another holder
reports not-renewed, performs no write, and the cycle demotes it. -/
theorem renew_read_first_no_write_when_overtaken_witness :
    (renewLeadership sampleLeader overtakenOracle).1 = .ok false ∧
      StoreCall.write ∉ (renewLeadership sampleLeader overtakenOracle).2 ∧
      (sampleLeader.isLeader = true →
        (runElectionCycle sampleLeader overtakenOracle).isLeader = false) :=
  ((renew_read_first_no_write_when_overtaken sampleLeader overtakenOracle).2
    rfl).1 "instance-2" rfl (by decide)

/-- C5: a store error inside an election cycle is absorbed there — the Go
function returns nothing, so nothing can propagate — and the cycle ends
in the conservative state: a leader whose renewal errors is demoted and a
follower whose acquisition errors stays follower (in fact its whole state
is unchanged). -/
theorem cycle_error_conservative (e : Elector) (o : CycleOracle)
    (err : ElectorErr)
    (h : (if e.isLeader then renewLeadership e o else attemptLeadership e o).1
      = .error err) :
    (runElectionCycle e o).isLeader = false ∧
      (e.isLeader = false → runElectionCycle e o = e) := by
  cases hb : e.isLeader
  · simp [hb] at h
    refine ⟨?_, fun _ => ?_⟩ <;>
      simp [runElectionCycle, hb, h]
  · simp [hb] at h
    refine ⟨?_, fun hcon => ?_⟩
    · simp [runElectionCycle, hb, h, setLeader]
    · simp [hb] at hcon

/-- Witness for C5: a cancelled follower context makes the acquisition
attempt return an error and the cycle leaves the instance a follower. -/
theorem cycle_error_conservative_witness :
    (runElectionCycle { sampleFollower with cancelled := true }
      acquireOkOracle).isLeader = false ∧
      ({ sampleFollower with cancelled := true }.isLeader = false →
        runElectionCycle { sampleFollower with cancelled := true }
          acquireOkOracle = { sampleFollower with cancelled := true }) :=
  cycle_error_conservative { sampleFollower with cancelled := true }
    acquireOkOracle .contextCanceled (by decide)

/-- C6 counterexample: when the first `Stop()` is answered with a failing
delete, the leader flag stays set, so the second `Stop()` runs the
revocation again and issues a second delete call — two revoke writes
against the store, refuting "at most one revoke write ... for every
outcome (success or error)". -/
theorem stop_twice_performs_two_deletes :
    countDeletes ((Stop sampleLeader revokeDeleteFails).2) +
        countDeletes
          ((Stop (Stop sampleLeader revokeDeleteFails).1 revokeAllOk).2) =
      2 := by decide

/-- Helper: a `Stop` on a non-leader only cancels the context and issues
no store call. -/
theorem stop_not_leader (e : Elector) (o : RevokeOracle)
    (h : e.isLeader = false) :
    Stop e o = ({ e with cancelled := true }, []) := by
  simp [Stop, h]

/-- Helper: if a `Stop` issued a delete call and the oracle answered that
delete with success, the resulting local flag is cleared. -/
theorem stop_delete_ok_clears_flag (e : Elector) (o : RevokeOracle)
    (hdel : o.del = .ok ()) (hmem : StoreCall.delete ∈ (Stop e o).2) :
    (Stop e o).1.isLeader = false := by
  obtain ⟨r, d, vr⟩ := o
  simp only at hdel
  subst hdel
  cases hb : e.isLeader
  · simp [Stop, hb] at hmem
  · rcases r with er | v
    · simp [Stop, revokeLeadership, getLeader, setLeader, hb]
    · by_cases hv : v = e.instanceID
      · subst hv
        simp [Stop, revokeLeadership, getLeader, setLeader, hb]
      · simp [Stop, revokeLeadership, getLeader, setLeader, hb, hv] at hmem

/-- C6 amended: calling `Stop()` twice in sequence after a completed
`Start()` never panics (both calls are total on an initialized elector)
and at most one revoke delete SUCCEEDS across the two calls; a delete
that fails during the first `Stop()` leaves the flag set, and the second
`Stop()` may then issue a further delete attempt. -/
theorem stop_twice_at_most_one_successful_delete (e : Elector)
    (o1 o2 : RevokeOracle) :
    succDeleteCount o1 (Stop e o1).2 +
        succDeleteCount o2 (Stop (Stop e o1).1 o2).2 ≤ 1 := by
  by_cases h1 : StoreCall.delete ∈ (Stop e o1).2 ∧ o1.del = Except.ok ()
  · have hflag : (Stop e o1).1.isLeader = false :=
      stop_delete_ok_clears_flag e o1 h1.2 h1.1
    have hcalls : (Stop (Stop e o1).1 o2).2 = [] := by
      rw [stop_not_leader _ _ hflag]
    have h2 : succDeleteCount o2 (Stop (Stop e o1).1 o2).2 = 0 := by
      simp [succDeleteCount, hcalls]
    have h1c : succDeleteCount o1 (Stop e o1).2 = 1 := by
      simp [succDeleteCount, h1.1, h1.2]
    omega
  · have h1c : succDeleteCount o1 (Stop e o1).2 = 0 := by
      simp [succDeleteCount, h1]
    have h2 : succDeleteCount o2 (Stop (Stop e o1).1 o2).2 ≤ 1 := by
      unfold succDeleteCount
      split <;> omega
    omega

/-- Helper: Go truncating division is odd in its dividend, stated for the
matching remainder. -/
theorem tmod_neg_dividend (a b : Int) : (-a).tmod b = -(a.tmod b) := by
  simp [Int.tmod_def, Int.neg_tdiv, neg_mul, neg_sub]
  ring

/-- Helper: `generateInitialDelay` unfolded to its conditional form. -/
theorem generateInitialDelay_eq (mn mx r : Int) :
    generateInitialDelay mn mx r =
      if durationMilliseconds mx - durationMilliseconds mn ≤ 0 then mn
      else mn + r * millisecond := rfl

/-- C7: for all durations with `minDelay ≤ maxDelay` and every outcome
`r` of the random draw (which `rng.Int63n` keeps inside
`[0, delayRange)` whenever the range is positive), the computed initial
delay is at least `minDelay` and strictly below `maxDelay` when
`minDelay < maxDelay`; when the two bounds coincide the delay is exactly
`minDelay`. -/
theorem generateInitialDelay_bounds (mn mx r : Int) (hle : mn ≤ mx)
    (hr : 0 < durationMilliseconds mx - durationMilliseconds mn →
      0 ≤ r ∧ r < durationMilliseconds mx - durationMilliseconds mn) :
    mn ≤ generateInitialDelay mn mx r ∧
      (mn < mx → generateInitialDelay mn mx r < mx) ∧
      (mn = mx → generateInitialDelay mn mx r = mn) := by
  rw [generateInitialDelay_eq]
  by_cases hrange : durationMilliseconds mx - durationMilliseconds mn ≤ 0
  · rw [if_pos hrange]
    exact ⟨le_refl mn, fun h => h, fun _ => rfl⟩
  · rw [if_neg hrange]
    push_neg at hrange
    obtain ⟨hr0, hrlt⟩ := hr hrange
    have hM : (0 : Int) < millisecond := by norm_num [millisecond]
    have hge : mn ≤ mn + r * millisecond := by
      have : 0 ≤ r * millisecond := mul_nonneg hr0 (le_of_lt hM)
      linarith
    refine ⟨hge, fun _ => ?_, fun heq => ?_⟩
    · have f1 := Int.tdiv_add_tmod mn millisecond
      have f2 := Int.tdiv_add_tmod mx millisecond
      have f3 : r + 1 ≤ durationMilliseconds mx - durationMilliseconds mn :=
        Int.lt_iff_add_one_le.mp hrlt
      have f4 : r * millisecond ≤
          (durationMilliseconds mx - durationMilliseconds mn - 1) *
            millisecond :=
        mul_le_mul_of_nonneg_right (by linarith) (le_of_lt hM)
      have han_lt : Int.tmod mn millisecond < millisecond :=
        Int.tmod_lt_of_pos mn hM
      have h5 : Int.tmod mn millisecond <
          Int.tmod mx millisecond + millisecond := by
        by_cases hax : 0 ≤ Int.tmod mx millisecond
        · linarith
        · have hmx_neg : mx < 0 := by
            by_contra hcon
            push_neg at hcon
            exact hax (Int.tmod_nonneg millisecond hcon)
          have hmn_neg : mn < 0 := lt_of_le_of_lt hle hmx_neg
          have han0 : Int.tmod mn millisecond ≤ 0 := by
            have hpos : (0 : Int) ≤ -mn := by linarith
            have := Int.tmod_nonneg (a := -mn) millisecond hpos
            rw [tmod_neg_dividend mn millisecond] at this
            linarith
          have hax_gt : -millisecond < Int.tmod mx millisecond := by
            have h1 := Int.tmod_lt_of_pos (-mx) hM
            rw [tmod_neg_dividend mx millisecond] at h1
            linarith
          linarith
      have key : mn +
          (durationMilliseconds mx - durationMilliseconds mn - 1) *
            millisecond =
          mx + (Int.tmod mn millisecond - Int.tmod mx millisecond -
            millisecond) := by
        unfold durationMilliseconds
        linear_combination f2 - f1
      linarith
    · rw [heq] at hrange
      simp at hrange

/-- Witness for C7: bounds evaluated for a zero minimum, a two
millisecond maximum, and the draw `r = 1`. -/
theorem generateInitialDelay_bounds_witness :
    (0 : Int) ≤ generateInitialDelay 0 (2 * millisecond) 1 ∧
      ((0 : Int) < 2 * millisecond →
        generateInitialDelay 0 (2 * millisecond) 1 < 2 * millisecond) ∧
      ((0 : Int) = 2 * millisecond →
        generateInitialDelay 0 (2 * millisecond) 1 = 0) :=
  generateInitialDelay_bounds 0 (2 * millisecond) 1 (by decide)
    (fun _ => ⟨by decide, by decide⟩)

/-- C8 counterexample: before any `Start()` the package-level pointer
`var elector *Elector` is nil, and `IsLeader()` begins with
`elector.mu.RLock()` — a nil-pointer dereference that panics instead of
returning false.  In the model the nil global is `none` and the panic is
the `none` result, which is not `some false`. -/
theorem isLeader_before_start_panics :
    IsLeader none = none ∧ IsLeader none ≠ some false := by
  exact ⟨rfl, by simp [IsLeader]⟩

/-- C8 amended: `IsLeader()` panics (nil dereference) when called before
`Start()` has installed the elector; once `Start()` has run — and before
any election cycle has acquired leadership — it returns false for every
configuration, instance id and random draw. -/
theorem isLeader_after_start_false (opts : List ElectorConfig)
    (instanceID : String) (r : Int) :
    IsLeader (some (Start opts instanceID r).1) = some false := by
  cases opts <;> rfl

/-- C9: `Start` returns the Go literal nil on every path: no validation
of the supplied configuration is performed, so a configuration violating
the documented invariants (for instance `checkInterval ≥ leaseTimeout` or
`maxDelay < minDelay`) is accepted silently. -/
theorem start_always_returns_nil (opts : List ElectorConfig)
    (instanceID : String) (r : Int) :
    (Start opts instanceID r).2 = none := by
  cases opts <;> rfl

/-- C10: `dynamo.Put` errors exactly when the table lookup errors; the
error of the inner `table.Put` is discarded, so a failed write still
yields nil, and the abort-on-write-error branches of acquisition
(`failed to set leadership`) and renewal (`failed to renew lease`) are
unreachable when the write goes through `dynamo.Put` with a resolvable
table — a lost write can surface only through the verification read. -/
theorem dynamoPut_discards_table_put_error
    (lookup inner : Except String Unit) (e : Elector) (o : CycleOracle) :
    ((∃ msg, dynamoPut lookup inner = .error msg) ↔
      (∃ msg, lookup = .error msg)) ∧
      dynamoPut (.ok ()) inner = .ok () ∧
      (o.write = dynamoPut (.ok ()) inner →
        (∀ s, (attemptLeadership e o).1 ≠
          .error (.setLeadershipFailed s)) ∧
        (∀ s, (renewLeadership e o).1 ≠ .error (.renewLeaseFailed s))) := by
  refine ⟨?_, rfl, ?_⟩
  · rcases lookup with el | ⟨⟩ <;> simp [dynamoPut]
  · intro hw
    obtain ⟨r1, w, r2⟩ := o
    simp only [dynamoPut] at hw
    subst hw
    constructor
    · intro s hcon
      cases hc : e.cancelled
      · rcases r1 with e1 | v1
        · simp [attemptLeadership, getLeader, hc] at hcon
        · by_cases hv : v1 = ""
          · subst hv
            rcases r2 with e2 | v2 <;>
              simp [attemptLeadership, getLeader, hc] at hcon
          · simp [attemptLeadership, getLeader, hc, hv] at hcon
      · simp [attemptLeadership, hc] at hcon
    · intro s hcon
      cases hc : e.cancelled
      · rcases r1 with e1 | v1
        · simp [renewLeadership, getLeader, hc] at hcon
        · by_cases hv : v1 = e.instanceID
          · subst hv
            simp [renewLeadership, getLeader, hc] at hcon
          · simp [renewLeadership, getLeader, hc, hv] at hcon
      · simp [renewLeadership, hc] at hcon

/-- Witness for C10: with a resolved table and a failing inner write, the
acquisition of the sample follower does not abort in its write branch. -/
theorem dynamoPut_discards_table_put_error_witness :
    (attemptLeadership sampleFollower
        { read1 := .ok "", write := dynamoPut (.ok ()) (.error "disk full")
          read2 := .ok "" }).1 ≠
      .error (.setLeadershipFailed "disk full") :=
  ((dynamoPut_discards_table_put_error (.ok ()) (.error "disk full")
      sampleFollower
      { read1 := .ok "", write := dynamoPut (.ok ()) (.error "disk full")
        read2 := .ok "" }).2.2 rfl).1 "disk full"

/-- Helper invariant for the CAS acquisition system: every instance that
is past a successful compare-and-swap (or already done with success) has
its id in the store.  Instance ids are assumed non-empty, as the UUIDs of
elector.go are. -/
theorem casWinner_store {n : Nat} (ids : Fin n → String)
    (hne : ∀ k, ids k ≠ "") {s : CasSys n} (hr : CasReachable ids s) :
    ∀ i, s.pc i = AcqPC.afterWrite true ∨ s.pc i = AcqPC.done true →
      s.store = ids i := by
  induction hr with
  | refl =>
      intro i hi
      rcases hi with h | h <;> simp [casInit] at h
  | tail _ hstep ih =>
      cases hstep with
      | readStep i h =>
          intro j hj
          by_cases hij : j = i
          · subst hij
            simp [Function.update_same] at hj
          · simp only [Function.update_apply, if_neg hij] at hj
            exact ih j hj
      | readFail i h =>
          intro j hj
          by_cases hij : j = i
          · subst hij
            simp [Function.update_same] at hj
          · simp only [Function.update_apply, if_neg hij] at hj
            exact ih j hj
      | holderSeen i v h hv =>
          intro j hj
          by_cases hij : j = i
          · subst hij
            simp [Function.update_same] at hj
          · simp only [Function.update_apply, if_neg hij] at hj
            exact ih j hj
      | casWriteOk i h hst =>
          intro j hj
          by_cases hij : j = i
          · subst hij
            rfl
          · simp only [Function.update_apply, if_neg hij] at hj
            have hsj := ih j hj
            rw [hst] at hsj
            exact absurd hsj.symm (hne j)
      | casWriteLost i h hst =>
          intro j hj
          by_cases hij : j = i
          · subst hij
            simp [Function.update_same] at hj
          · simp only [Function.update_apply, if_neg hij] at hj
            exact ih j hj
      | writeFail i h =>
          intro j hj
          by_cases hij : j = i
          · subst hij
            simp [Function.update_same] at hj
          · simp only [Function.update_apply, if_neg hij] at hj
            exact ih j hj
      | verifyStep i h =>
          intro j hj
          by_cases hij : j = i
          · subst hij
            exact ih j (Or.inl h)
          · simp only [Function.update_apply, if_neg hij] at hj
            exact ih j hj
      | verifyFail i h =>
          intro j hj
          by_cases hij : j = i
          · subst hij
            simp [Function.update_same] at hj
          · simp only [Function.update_apply, if_neg hij] at hj
            exact ih j hj
      | casLostDone i h =>
          intro j hj
          by_cases hij : j = i
          · subst hij
            simp [Function.update_same] at hj
          · simp only [Function.update_apply, if_neg hij] at hj
            exact ih j hj

/-- C2: when compare-and-swap semantics are layered onto the holder
write, then in every state reachable by interleaving the acquisition
attempts of any set of concurrently running instances (with distinct,
non-empty ids), at most one instance stands immediately after a
successful acquisition verification read — the point where it sets
`IsLeader()` to true. -/
theorem cas_mutual_exclusion {n : Nat} (ids : Fin n → String)
    (hinj : Function.Injective ids) (hne : ∀ k, ids k ≠ "")
    {s : CasSys n} (hr : CasReachable ids s) (i j : Fin n)
    (hi : s.pc i = AcqPC.done true) (hj : s.pc j = AcqPC.done true) :
    i = j :=
  hinj ((casWinner_store ids hne hr i (Or.inr hi)).symm.trans
    (casWinner_store ids hne hr j (Or.inr hj)))

/-- Helper: a concrete reachable state of the one-instance CAS system in
which the single instance has completed a successful acquisition. -/
theorem casExampleReach :
    ∃ s : CasSys 1, CasReachable casIds1 s ∧ s.pc 0 = AcqPC.done true := by
  have h1 : CasStep casIds1 (casInit 1) casRun1 :=
    CasStep.readStep (casInit 1) 0 rfl
  have h2 : CasStep casIds1 casRun1 casRun2 :=
    CasStep.casWriteOk casRun1 0
      (by simp [casRun1, Function.update_same]) rfl
  have h3 : CasStep casIds1 casRun2 casRun3 :=
    CasStep.verifyStep casRun2 0
      (by simp [casRun2, Function.update_same])
  refine ⟨casRun3, Relation.ReflTransGen.tail (Relation.ReflTransGen.tail
    (Relation.ReflTransGen.tail Relation.ReflTransGen.refl h1) h2) h3, ?_⟩
  simp [casRun3, casRun2, casRun1, casIds1, Function.update_same]

/-- Witness for C2: in the concrete one-instance run that reaches a
successful verification read, the theorem applies and identifies the
leader with itself. -/
theorem cas_mutual_exclusion_witness : (0 : Fin 1) = 0 := by
  obtain ⟨s, hr, hd⟩ := casExampleReach
  exact cas_mutual_exclusion casIds1 (fun a b _ => Subsingleton.elim a b)
    (fun k => by simp [casIds1]) hr 0 0 hd hd

end GoUtils
